import Mathlib

/-!
Verification of the content-discovery and deduplication engine of the
Twitter-Gemini-GitHub-MVP repository.

The JavaScript source is shallowly embedded: JS strings become `List Char`
(so that every operation is structurally recursive and kernel-computable),
JS `Set`s of ids become insertion-ordered duplicate-free lists, the mutable
per-call state of `findContent` becomes explicit state records, and each
DOM read that the code performs on a tweet element is represented by a
field of a snapshot record (`TweetElement`), with `""`/`none` standing for
a missing element, a `null` attribute, or a caught per-field error, exactly
as the code's own `try`/`catch` blocks collapse those cases.
-/

namespace TwitterMVP

/-- JS strings are modelled as lists of characters. -/
abbrev JStr := List Char

/-- Whitespace test matching the characters relevant to the JS `\s` class and
`String.prototype.trim` for the ASCII range. -/
def isWs (c : Char) : Bool :=
  c = ' ' || c = '\t' || c = '\n' || c = '\r'

/-- Model of JS `String.prototype.trim`: remove leading and trailing whitespace. -/
def trimJ (s : JStr) : JStr :=
  ((s.dropWhile isWs).reverse.dropWhile isWs).reverse

/-- Helper for `splitOnSub`: scan the string left to right, cutting at each
occurrence of the (non-empty) separator. `fuel` bounds the recursion and is
initialised to the string length, which always suffices. `acc` holds the
current piece in reverse. -/
def splitOnSubGo (sep : JStr) : Nat → JStr → JStr → List JStr
  | _, acc, [] => [acc.reverse]
  | 0, acc, s => [acc.reverse ++ s]
  | fuel + 1, acc, c :: cs =>
    if sep.isPrefixOf (c :: cs) then
      acc.reverse :: splitOnSubGo sep fuel [] ((c :: cs).drop sep.length)
    else
      splitOnSubGo sep fuel (c :: acc) cs

/-- Model of JS `String.prototype.split` with a non-empty string separator
(the code only ever splits on `"/status/"`, `"?"` and `"/"`). -/
def splitOnSub (sep s : JStr) : List JStr :=
  if sep = [] then [s] else splitOnSubGo sep s.length [] s

/-- Model of splitting at every whitespace character.  The code computes
`combinedText.split(/\s+/).filter((w) => w.length > 0).length`; splitting at
single whitespace characters and filtering out the empty pieces yields the
same list of maximal non-whitespace runs as splitting on `\s+`. -/
def splitWs : JStr → List JStr
  | [] => [[]]
  | c :: cs =>
    if isWs c then
      [] :: splitWs cs
    else
      match splitWs cs with
      | h :: t => (c :: h) :: t
      | [] => [[c]]

/-- Word count of the combined thread text, from `findContent`:
`combinedText.split(/\s+/).filter((word) => word.length > 0).length`. -/
def wordCount (s : JStr) : Nat :=
  ((splitWs s).filter (fun w => w.length > 0)).length

/-! Constants of `findContent` and the `TwitterService` constructor
(src/unnamed/part_003). -/

def RATE_LIMIT_DELAY : Nat := 60000
def MAX_PROCESSED_IDS : Nat := 10000
def THREADS_NEEDED : Nat := 10
def MAX_SCROLL_ATTEMPTS : Nat := 100
def MAX_NO_NEW_TWEETS : Nat := 5
def MIN_TOTAL_WORDS : Nat := 15
def MAX_SEEN_TWEETS : Nat := 1000

/-- Snapshot of the DOM reads `extractTweetData` performs on one tweet
`article` element (src/unnamed/part_003, lines 94-184).  An empty string
models a missing sub-element, a `null` attribute, or a caught per-field
error, matching how the code's falsy-checks treat those cases. -/
structure TweetElement where
  /-- Text of the `[data-testid="tweetText"]` descendant; `""` if missing. -/
  tweetText : JStr
  /-- Text of the quoted tweet, when the quote lookup succeeds; `""` otherwise. -/
  quotedText : JStr
  /-- The `href` attributes of all `a` descendants. -/
  links : List JStr
  /-- The `src` attributes of all `[data-testid="tweetPhoto"] img` descendants. -/
  images : List JStr
  /-- The `src` attributes of all `video` descendants. -/
  videos : List JStr
  /-- The `href` of the first `a[href*="/status/"]` descendant; `""` if missing. -/
  statusHref : JStr
  /-- The `datetime` attribute of the first `time` descendant; `""` if missing. -/
  timestampAttr : JStr
deriving DecidableEq, Repr

/-- The record returned by `extractTweetData` in src/unnamed/part_003:
`{ text: tweetText, links, images, videos, url, timestamp }`. -/
structure TweetData where
  text : JStr
  links : List JStr
  images : List JStr
  videos : List JStr
  url : JStr
  timestamp : JStr
deriving DecidableEq, Repr

/-- The separator the code inserts before a quoted tweet:
`"\n\nQuoted Tweet:\n"`. -/
def quotedSep : JStr := '\n' :: '\n' :: "Quoted Tweet:".toList ++ ['\n']

/-- Model of `extractTweetData` from src/unnamed/part_003 (lines 94-184) on a
successfully read element: if neither own text nor quoted text is present the
tweet is skipped (`null`); otherwise the quoted text, when present, is appended
to the own text behind a separator, and the remaining fields are read with
`""` defaults.  The stale-element retry wrapper is modelled separately by
`extractTweetDataR`. -/
def extractTweetData (el : TweetElement) : Option TweetData :=
  let quotedTweetText := el.quotedText
  let tweetText := el.tweetText
  if tweetText = [] && quotedTweetText = [] then
    none
  else
    let text :=
      if quotedTweetText ≠ [] then tweetText ++ quotedSep ++ quotedTweetText
      else tweetText
    some ⟨text, el.links, el.images, el.videos, el.statusHref, el.timestampAttr⟩

/-- Tweet-id parsing from `findContent` (lines 351-353):
`url.split("/status/")[1]?.split("?")[0]`, `none` when the url has no
`"/status/"` occurrence. -/
def tweetIdOfUrl (url : JStr) : Option JStr :=
  match splitOnSub "/status/".toList url with
  | _ :: second :: _ => some ((splitOnSub "?".toList second).headD [])
  | _ => none

/-- Combined resolution of a tweet id from a url, `none` exactly when the
code's guards at lines 345-360 skip the item: blank url, no `"/status/"`
segment, or an empty id. -/
def resolvesId (url : JStr) : Option JStr :=
  if trimJ url = [] then none
  else
    match tweetIdOfUrl url with
    | some tid => if tid = [] then none else some tid
    | none => none

/-- Author segment of a permalink, from the thread walk (lines 411-419):
`href.split("/")` followed by the `parts.length < 4` guard and `parts[3]`.
`none` models the `break` on fewer than 4 parts. -/
def hrefAuthor (href : JStr) : Option JStr :=
  match splitOnSub "/".toList href with
  | _ :: _ :: _ :: a :: _ => some a
  | _ => none

/-- A `following-sibling::div` container in the feed; it may or may not hold
a tweet `article` (`findElement` throwing models as `none`). -/
structure Container where
  tweet : Option TweetElement
deriving DecidableEq, Repr

/-- The thread walk of `findContent` (src/unnamed/part_003, lines 374-443):
starting from the head element, successive sibling containers are inspected;
the walk appends the sibling's extracted data while the sibling holds a tweet,
both permalinks are present with at least 4 `/`-separated parts, the two
authors (`parts[3]`) are non-empty and equal, and the sibling's extracted text
is non-empty; it stops (without error) at the first failure of any of these. -/
def threadWalk (headEl : TweetElement) : List Container → List TweetData
  | [] => []
  | c :: rest =>
    match c.tweet with
    | none => []
    | some nextTweet =>
      let originalHref := headEl.statusHref
      let nextHref := nextTweet.statusHref
      if originalHref = [] || nextHref = [] then []
      else
        match hrefAuthor originalHref, hrefAuthor nextHref with
        | some originalAuthor, some nextAuthor =>
          if originalAuthor = [] || nextAuthor = [] || originalAuthor ≠ nextAuthor then []
          else
            match extractTweetData nextTweet with
            | some d => if d.text = [] then [] else d :: threadWalk headEl rest
            | none => []
        | _, _ => []

/-- Combined text of a thread (lines 445-448):
`threadTweets.reduce((acc, curr) => acc + (curr.text || ""), "")`. -/
def combinedText (ts : List TweetData) : JStr :=
  ts.foldl (fun acc t => acc ++ t.text) []

/-- Media-or-links test (lines 459-464): some tweet of the thread has a
non-empty `links`, `images` or `videos` list. -/
def hasMediaOrLinks (ts : List TweetData) : Bool :=
  ts.any fun t => !t.links.isEmpty || !t.images.isEmpty || !t.videos.isEmpty

/-- One visible tweet element as the scroll loop sees it: the outcome of the
`isDisplayed` probe (`none` models a stale-element throw, which the loop
skips), the element snapshot itself, and its chain of following siblings. -/
structure Obs where
  displayed : Option Bool
  el : TweetElement
  siblings : List Container
deriving DecidableEq, Repr

/-- An entry of `collectedContent` (lines 470-474):
`{ tweets: threadTweets, url: initialTweetData.url, timestamp: initialTweetData.timestamp }`. -/
structure CollectedItem where
  tweets : List TweetData
  url : JStr
  timestamp : JStr
deriving DecidableEq, Repr

/-- The mutable state of one `findContent` call that the per-item loop body
touches, together with the instance-level Dedup Ledger `processedTweetIds`
(modelled as the insertion-ordered list of the JS `Set`'s elements). -/
structure LoopState where
  processedTweetIds : List JStr
  collectedContent : List CollectedItem
  validTweetsCount : Nat
deriving DecidableEq, Repr

/-- The id an observation resolves to, combining the guards of lines 329-360:
the element must be displayed, extraction must succeed, the url must be
non-blank and the parsed id non-empty.  `none` means the loop body skips the
item before the dedup check. -/
def obsId (o : Obs) : Option JStr :=
  match o.displayed with
  | some true =>
    match extractTweetData o.el with
    | some d => resolvesId d.url
    | none => none
  | _ => none

/-- The body of the per-item loop of `findContent` (src/unnamed/part_003,
lines 326-487) as a state transformer: skip when the target is already met;
skip stale or hidden elements; skip failed extractions; skip blank urls and
unparseable or empty ids; skip ids already in the Dedup Ledger; assemble the
thread, and accept — adding the id to the ledger and the thread to the
results — exactly when the combined text is non-blank and the word count
reaches `MIN_TOTAL_WORDS` or media/links are present. -/
def processObs (target : Nat) (s : LoopState) (o : Obs) : LoopState :=
  if target ≤ s.validTweetsCount then s
  else
    match o.displayed with
    | none => s
    | some false => s
    | some true =>
      match extractTweetData o.el with
      | none => s
      | some d =>
        if trimJ d.url = [] then s
        else
          match tweetIdOfUrl d.url with
          | none => s
          | some tweetId =>
            if tweetId = [] then s
            else if s.processedTweetIds.contains tweetId then s
            else
              let threadTweets := d :: threadWalk o.el o.siblings
              let combined := combinedText threadTweets
              if trimJ combined = [] then s
              else if MIN_TOTAL_WORDS ≤ wordCount combined || hasMediaOrLinks threadTweets then
                ⟨s.processedTweetIds ++ [tweetId],
                 s.collectedContent ++ [⟨threadTweets, d.url, d.timestamp⟩],
                 s.validTweetsCount + 1⟩
              else s

/-- One sweep over the tweet elements visible after a scroll (the `for` loop
of lines 326-487), restricted to the fields that survive the pass. -/
def runPass (target : Nat) (s : LoopState) (obs : List Obs) : LoopState :=
  obs.foldl (processObs target) s

/-- JS `Set.prototype.add` on the insertion-ordered list model. -/
def addIfAbsent (l : List JStr) (x : JStr) : List JStr :=
  if l.contains x then l else l ++ [x]

/-- Per-pass accumulator: the loop state plus the pass-local
`currentTweetIds` set and `newTweetsFound` counter (lines 323-324). -/
structure PassState where
  ls : LoopState
  currentTweetIds : List JStr
  newTweetsFound : Nat
deriving DecidableEq, Repr

/-- The per-item loop body including the seen-tracking of lines 362-368:
once an id is resolved, it is added to `currentTweetIds` and counted as new
when absent from `lastSeenTweetIds` — before and independently of the dedup
check and the acceptance decision, both delegated to `processObs`. -/
def processObsFull (target : Nat) (lastSeen : List JStr) (ps : PassState) (o : Obs) :
    PassState :=
  if target ≤ ps.ls.validTweetsCount then ps
  else
    { ls := processObs target ps.ls o
      currentTweetIds :=
        match obsId o with
        | some tweetId => addIfAbsent ps.currentTweetIds tweetId
        | none => ps.currentTweetIds
      newTweetsFound :=
        match obsId o with
        | some tweetId =>
          ps.newTweetsFound + (if lastSeen.contains tweetId then 0 else 1)
        | none => ps.newTweetsFound }

/-- What one iteration of the scroll loop observes from the session: whether
the scroll commands succeed (the `try` of lines 237-271), whether the
document-height read afterwards succeeds — this `await` at lines 273-275 is
the one session call of the loop body outside any `try`, so its failure
propagates out of the loop and is rethrown by the outer catch of lines
538-541 — the height value read on success, whether the fresh element query
succeeds (the `try` of lines 278-320), and the visible tweet elements found. -/
structure ScrollIter where
  scrollOk : Bool
  heightOk : Bool
  height : Nat
  findOk : Bool
  obs : List Obs

/-- The loop variables of `findContent` (lines 186-193). -/
structure ScrollState where
  ls : LoopState
  scrollAttempts : Nat
  lastHeight : Nat
  noNewTweetsCount : Nat
  lastSeenTweetIds : List JStr
  sameContentCount : Nat
deriving DecidableEq, Repr

/-- How the scroll loop of `findContent` ends.  The first five are the
normal exits, all of which make `findContent` return the collected list;
`heightReadError` is the abnormal exit — the unguarded document-height read
of line 273 threw, and the exception propagates out of `findContent` via the
rethrow at lines 538-541; `fuelOut` is an artefact of the fuelled model and
is proved unreachable for sufficient fuel. -/
inductive ExitKind where
  | target
  | maxAttempts
  | contentStall
  | heightStall
  | scrollFailure
  | heightReadError
  | fuelOut
deriving DecidableEq, Repr

/-- The session-level errors a `findContent` call can propagate: a failure
of the initial tweet-selector wait (lines 220-223), or a failure of the
unguarded document-height read (lines 273-275); both are rethrown by the
outer catch at lines 538-541. -/
inductive SessionError where
  | initialWait
  | heightRead
deriving DecidableEq, Repr

/-- JS `Array.from(set).slice(-n)`: the last `n` elements. -/
def sliceLast (n : Nat) (l : List JStr) : List JStr :=
  l.drop (l.length - n)

/-- The valid-content/height stall logic of lines 519-532, run after each
pass: reset `noNewTweetsCount` when new valid content was accepted this
scroll, advance it when the document height is unchanged — the `Bool`
signals the `break` at `MAX_NO_NEW_TWEETS` — and otherwise record the new
height. -/
def heightStep (previousValidCount currentHeight : Nat) (st2 : ScrollState) :
    ScrollState × Bool :=
  if previousValidCount < st2.ls.validTweetsCount then
    ({ st2 with noNewTweetsCount := 0 }, false)
  else if currentHeight = st2.lastHeight then
    let st3 := { st2 with noNewTweetsCount := st2.noNewTweetsCount + 1 }
    (st3, MAX_NO_NEW_TWEETS ≤ st3.noNewTweetsCount)
  else
    ({ st2 with lastHeight := currentHeight }, false)

/-- The seen-tracking update of lines 489-517 for a pass that observed new
tweets: merge the pass's ids into `lastSeenTweetIds`, truncating to the most
recent 500 when the set exceeds `MAX_SEEN_TWEETS`, and reset the
same-content stall counter. -/
def seenUpdate (ps : PassState) (st1 : ScrollState) : ScrollState :=
  let merged := ps.currentTweetIds.foldl addIfAbsent st1.lastSeenTweetIds
  let lastSeen' :=
    if MAX_SEEN_TWEETS < merged.length then sliceLast 500 merged else merged
  { st1 with sameContentCount := 0, lastSeenTweetIds := lastSeen' }

/-- The scroll loop of `findContent` (src/unnamed/part_003, lines 225-534)
over a session trace `trace` (iteration `i` observes `trace i`):
the loop runs while `scrollAttempts < MAX_SCROLL_ATTEMPTS` and
`validTweetsCount < THREADS_NEEDED`; a scroll failure breaks out (line 270);
a failed element query only advances `scrollAttempts` (lines 316-320);
otherwise the items are processed, the same-content stall counter is reset or
advanced — breaking at 10 (lines 489-517) — and the height stall counter is
reset on new valid content, advanced on an unchanged height — breaking at
`MAX_NO_NEW_TWEETS` — or the height is recorded (lines 519-532). -/
def runLoop (trace : Nat → ScrollIter) : Nat → Nat → ScrollState → ScrollState × ExitKind
  | fuel, i, st =>
    if THREADS_NEEDED ≤ st.ls.validTweetsCount then (st, .target)
    else if MAX_SCROLL_ATTEMPTS ≤ st.scrollAttempts then (st, .maxAttempts)
    else
      match fuel with
      | 0 => (st, .fuelOut)
      | fuel' + 1 =>
        let it := trace i
        if !it.scrollOk then (st, .scrollFailure)
        else if !it.heightOk then (st, .heightReadError)
        else
          let currentHeight := it.height
          if !it.findOk then
            runLoop trace fuel' (i + 1) { st with scrollAttempts := st.scrollAttempts + 1 }
          else
            let previousValidCount := st.ls.validTweetsCount
            let ps := it.obs.foldl (processObsFull THREADS_NEEDED st.lastSeenTweetIds)
              ⟨st.ls, [], 0⟩
            let st1 : ScrollState := { st with ls := ps.ls }
            if 0 < ps.newTweetsFound then
              let hs := heightStep previousValidCount currentHeight (seenUpdate ps st1)
              if hs.2 then (hs.1, .heightStall)
              else runLoop trace fuel' (i + 1)
                { hs.1 with scrollAttempts := hs.1.scrollAttempts + 1 }
            else
              let st2 := { st1 with sameContentCount := st1.sameContentCount + 1 }
              if 10 ≤ st2.sameContentCount then (st2, .contentStall)
              else
                let hs := heightStep previousValidCount currentHeight st2
                if hs.2 then (hs.1, .heightStall)
                else runLoop trace fuel' (i + 1)
                  { hs.1 with scrollAttempts := hs.1.scrollAttempts + 1 }

/-- Compaction of the Dedup Ledger, `clearProcessedIds`
(src/unnamed/part_003, lines 16-25): when the set holds more than
`MAX_PROCESSED_IDS` ids, keep `Array.from(set).slice(Math.floor(len / 2))`,
the most recently inserted ids. -/
def clearProcessedIds (ids : List JStr) : List JStr :=
  if MAX_PROCESSED_IDS < ids.length then ids.drop (ids.length / 2) else ids

/-- The initial `ScrollState` of one `findContent` call: the instance ledger
after the `clearProcessedIds()` call of line 196, and zeroed loop variables
(lines 186-192). -/
def initialScrollState (processed : List JStr) : ScrollState :=
  ⟨⟨clearProcessedIds processed, [], 0⟩, 0, 0, 0, [], 0⟩

/-- One `findContent` call (src/unnamed/part_003, lines 85-542) as a function
of the persisted ledger and the session trace: a failure of the initial
tweet-selector wait is rethrown (lines 220-223 with the outer catch at
538-541), as is a failure of the unguarded document-height read inside the
loop (lines 273-275); every other loop exit, including a scroll-command
failure, returns the collected content normally. -/
def findContentModel (processed : List JStr) (initialOk : Bool)
    (trace : Nat → ScrollIter) : Except SessionError (List CollectedItem) :=
  if initialOk then
    let r := runLoop trace (MAX_SCROLL_ATTEMPTS + 1) 0 (initialScrollState processed)
    if r.2 = ExitKind.heightReadError then Except.error SessionError.heightRead
    else Except.ok r.1.ls.collectedContent
  else
    Except.error SessionError.initialWait

/-- The ledger left behind by one completed `findContent` call. -/
def findContentLedger (processed : List JStr) (trace : Nat → ScrollIter) : List JStr :=
  (runLoop trace (MAX_SCROLL_ATTEMPTS + 1) 0 (initialScrollState processed)).1.ls.processedTweetIds

/-- The ledger of a `TwitterService` instance after a sequence of completed
`findContent` calls, starting from the empty set of the constructor. -/
def ledgerAfterRuns (traces : List (Nat → ScrollIter)) : List JStr :=
  traces.foldl findContentLedger []

/-- Rate governor of src/unnamed/part_003 (lines 38-48).  State is
`lastRequestTime`; `now` is the entry time.  Returns the updated
`lastRequestTime` and the time at which the call returns, assuming `sleep`
suspends for exactly the requested duration.  Note the code stores `now` —
captured before the sleep — as the new `lastRequestTime`. -/
def checkRateLimit (lastRequestTime now : Nat) : Nat × Nat :=
  if now - lastRequestTime < RATE_LIMIT_DELAY then
    (now, now + (RATE_LIMIT_DELAY - (now - lastRequestTime)))
  else
    (now, now)

/-- Rate governor variant of src/unnamed/part_002 (lines 222-232): identical
wait logic, but `lastRequestTime` is set to `Date.now()` after the sleep,
i.e. to the return time. -/
def checkRateLimit2 (lastRequestTime now : Nat) : Nat × Nat :=
  if now - lastRequestTime < RATE_LIMIT_DELAY then
    let ret := now + (RATE_LIMIT_DELAY - (now - lastRequestTime))
    (ret, ret)
  else
    (now, now)

/-- Outcome of one attempt to read a tweet element: the element snapshot, a
`StaleElementReferenceError`, or any other error. -/
inductive Attempt where
  | ok (el : TweetElement)
  | stale
  | failed
deriving DecidableEq, Repr

/-- The retry wrapper of `extractTweetData` (src/unnamed/part_003, lines
94-96 and 176-183): attempt `i` is read from the oracle; a stale-element
error with retries left sleeps 500ms and re-runs the whole extraction with
one retry fewer; a stale error with no retries left, or any other error,
yields `null`.  Returns the result and the total backoff slept. -/
def extractTweetDataR (oracle : Nat → Attempt) : Nat → Nat → Option TweetData × Nat
  | i, 0 =>
    match oracle i with
    | .ok el => (extractTweetData el, 0)
    | .failed => (none, 0)
    | .stale => (none, 0)
  | i, r + 1 =>
    match oracle i with
    | .ok el => (extractTweetData el, 0)
    | .failed => (none, 0)
    | .stale =>
      let p := extractTweetDataR oracle (i + 1) r
      (p.1, 500 + p.2)

/-- Snapshot of the DOM reads of `extractTweetData` in src/unnamed/part_001
(lines 404-517), which additionally reads the author link. -/
structure TweetElement1 where
  tweetText : JStr
  quotedText : JStr
  links : List JStr
  images : List JStr
  videos : List JStr
  statusHref : JStr
  timestampAttr : JStr
  /-- The `href` of the `[data-testid="User-Name"] a` element; `""` if missing. -/
  authorHref : JStr
deriving DecidableEq, Repr

/-- The record returned by `extractTweetData` in src/unnamed/part_001. -/
structure TweetData1 where
  id : JStr
  text : JStr
  url : JStr
  links : List JStr
  images : List JStr
  videos : List JStr
  timestamp : JStr
  author : JStr
deriving DecidableEq, Repr

/-- Author handle resolution of src/unnamed/part_001 (lines 483-492):
`authorHref.split("/").filter(Boolean)` and the last part, `""` on failure. -/
def authorOfHref (href : JStr) : JStr :=
  if href = [] then []
  else
    match ((splitOnSub "/".toList href).filter (fun p => p ≠ [])).getLast? with
    | some a => a
    | none => []

/-- Model of `extractTweetData` from src/unnamed/part_001 (lines 404-517) on
a successfully read element: unlike the part_003 variant it has no
empty-text skip, resolves the author, parses the tweet id itself, and
returns `null` exactly when no non-empty id can be parsed from the
permalink (`if (!tweetId) return null`). -/
def extractTweetData1 (el : TweetElement1) : Option TweetData1 :=
  let tweetText :=
    if el.quotedText ≠ [] then el.tweetText ++ quotedSep ++ el.quotedText
    else el.tweetText
  let url := el.statusHref
  let author := authorOfHref el.authorHref
  let tweetId :=
    if url ≠ [] then
      match tweetIdOfUrl url with
      | some t => t
      | none => []
    else []
  if tweetId = [] then none
  else some ⟨tweetId, tweetText, url, el.links, el.images, el.videos, el.timestampAttr, author⟩

/-- A sequence of discovery passes against one ledger instance, as in the
lifetime of a `TwitterService`: each pass is one sweep over visible items,
run with a fresh result collection and a zeroed valid-count (as each
`findContent` call does) against the persisted ledger; compaction is not
applied.  Returns the per-pass result collections and the final ledger. -/
def discoveryRuns (target : Nat) : List (List Obs) → List JStr →
    List (List CollectedItem) × List JStr
  | [], processed => ([], processed)
  | obs :: rest, processed =>
    let s := runPass target ⟨processed, [], 0⟩ obs
    let p := discoveryRuns target rest s.processedTweetIds
    (s.collectedContent :: p.1, p.2)

/-- The normal loop exits of `findContent` together with the loop condition
or stall condition that produced each: target reached, scroll-attempt
ceiling, the same-content stall of line 511, the unchanged-height stall of
line 524, or the caught scroll failure of line 270. -/
def NormalExit (r : ScrollState × ExitKind) : Prop :=
  (r.2 = ExitKind.target ∧ THREADS_NEEDED ≤ r.1.ls.validTweetsCount) ∨
  (r.2 = ExitKind.maxAttempts ∧ MAX_SCROLL_ATTEMPTS ≤ r.1.scrollAttempts) ∨
  (r.2 = ExitKind.contentStall ∧ 10 ≤ r.1.sameContentCount) ∨
  (r.2 = ExitKind.heightStall ∧ MAX_NO_NEW_TWEETS ≤ r.1.noNewTweetsCount) ∨
  r.2 = ExitKind.scrollFailure

/-! Concrete elements used by counterexamples and witnesses. -/

/-- A session whose scroll command always fails (its height reads would
succeed). -/
def scrollFailTrace : Nat → ScrollIter := fun _ => ⟨false, true, 0, true, []⟩

/-- An element whose text is a single space (truthy in JS) carrying one
image and a valid permalink. -/
def elWhite : TweetElement :=
  ⟨" ".toList, [], [], ["i".toList], [], "https://x.com/u/status/1".toList, []⟩

/-- The observation of `elWhite`, displayed, with no siblings. -/
def obsWhite : Obs := ⟨some true, elWhite, []⟩

/-- An element with one word of text and one image. -/
def elAccept : TweetElement :=
  ⟨"hello".toList, [], [], ["img".toList], [], "https://x.com/u/status/7".toList, []⟩

/-- The observation of `elAccept`, displayed, with no siblings. -/
def obsAccept : Obs := ⟨some true, elAccept, []⟩

/-- An element with three words of text, no media, no links. -/
def elReject : TweetElement :=
  ⟨"just three words".toList, [], [], [], [], "https://x.com/u/status/9".toList, []⟩

/-- The observation of `elReject`, displayed, with no siblings. -/
def obsReject : Obs := ⟨some true, elReject, []⟩

/-- Head element of a three-tweet thread by `alice`. -/
def elA1 : TweetElement :=
  ⟨"alpha one".toList, [], [], [], [], "https://x.com/alice/status/1".toList, []⟩

/-- Second tweet of the `alice` thread. -/
def elA2 : TweetElement :=
  ⟨"alpha two".toList, [], [], [], [], "https://x.com/alice/status/2".toList, []⟩

/-- Third tweet of the `alice` thread. -/
def elA3 : TweetElement :=
  ⟨"alpha three".toList, [], [], [], [], "https://x.com/alice/status/3".toList, []⟩

/-- A following tweet by a different author `bob`. -/
def elB : TweetElement :=
  ⟨"bob text".toList, [], [], [], [], "https://x.com/bob/status/4".toList, []⟩

/-- The sibling chain after `elA1`: two more `alice` tweets, then `bob`. -/
def sibsA : List Container := [⟨some elA2⟩, ⟨some elA3⟩, ⟨some elB⟩]

/-- A part_001 element with text but no resolvable permalink. -/
def el1NoUrl : TweetElement1 :=
  ⟨"some text here".toList, [], [], [], [], [], [], "https://x.com/u".toList⟩

/-- An observation whose element has no resolvable permalink. -/
def obsNoUrl : Obs := ⟨some true, ⟨"plain text".toList, [], [], [], [], [], []⟩, []⟩

/-- An attempt oracle that always reports a stale element. -/
def staleOracle : Nat → Attempt := fun _ => Attempt.stale

/-! Helper lemmas. -/

/-- A successful extraction copies url, timestamp, links, images and videos
verbatim from the element. -/
theorem extractTweetData_fields {el : TweetElement} {d : TweetData}
    (h : extractTweetData el = some d) :
    d.url = el.statusHref ∧ d.timestamp = el.timestampAttr ∧
      d.links = el.links ∧ d.images = el.images ∧ d.videos = el.videos := by
  simp only [extractTweetData] at h
  split at h
  · cases h
  · injection h with h
    subst h
    exact ⟨rfl, rfl, rfl, rfl, rfl⟩

/-- Characterisation of successful id resolution. -/
theorem resolvesId_eq_some {url tid : JStr} :
    resolvesId url = some tid ↔
      trimJ url ≠ [] ∧ tweetIdOfUrl url = some tid ∧ tid ≠ [] := by
  unfold resolvesId
  by_cases htrim : trimJ url = []
  · simp [htrim]
  · simp only [if_neg htrim]
    cases h : tweetIdOfUrl url with
    | none =>
      constructor
      · intro hh; cases hh
      · rintro ⟨-, h2, -⟩; cases h2
    | some t =>
      by_cases ht : t = []
      · subst ht
        simp only [if_pos rfl]
        constructor
        · intro hh; cases hh
        · rintro ⟨-, h2, h3⟩
          cases h2
          exact absurd rfl h3
      · simp only [if_neg ht]
        constructor
        · intro hh
          cases hh
          exact ⟨htrim, rfl, ht⟩
        · rintro ⟨-, h2, -⟩
          cases h2
          rfl

/-- The loop body either leaves the state unchanged or accepts the item:
appends its id to the ledger, appends the assembled thread to the results,
and bumps the valid-count — and acceptance passes every guard. -/
theorem processObs_cases (tgt : Nat) (s : LoopState) (o : Obs) :
    processObs tgt s o = s ∨
      ∃ d tid,
        s.validTweetsCount < tgt ∧
        o.displayed = some true ∧
        extractTweetData o.el = some d ∧
        resolvesId d.url = some tid ∧
        s.processedTweetIds.contains tid = false ∧
        trimJ (combinedText (d :: threadWalk o.el o.siblings)) ≠ [] ∧
        (MIN_TOTAL_WORDS ≤ wordCount (combinedText (d :: threadWalk o.el o.siblings)) ∨
          hasMediaOrLinks (d :: threadWalk o.el o.siblings) = true) ∧
        processObs tgt s o =
          ⟨s.processedTweetIds ++ [tid],
           s.collectedContent ++ [⟨d :: threadWalk o.el o.siblings, d.url, d.timestamp⟩],
           s.validTweetsCount + 1⟩ := by
  by_cases htgt : tgt ≤ s.validTweetsCount
  · left
    unfold processObs
    simp [htgt]
  · rcases hdisp : o.displayed with - | b
    · left; unfold processObs; simp [htgt, hdisp]
    · cases b
      · left; unfold processObs; simp [htgt, hdisp]
      · rcases hex : extractTweetData o.el with - | d
        · left; unfold processObs; simp [htgt, hdisp, hex]
        · by_cases htrim : trimJ d.url = []
          · left; unfold processObs; simp [htgt, hdisp, hex, htrim]
          · rcases hid : tweetIdOfUrl d.url with - | tid
            · left; unfold processObs; simp [htgt, hdisp, hex, htrim, hid]
            · by_cases hnil : tid = []
              · left; unfold processObs; simp [htgt, hdisp, hex, htrim, hid, hnil]
              · by_cases hmem : s.processedTweetIds.contains tid = true
                · left
                  have hmem' : tid ∈ s.processedTweetIds := by simpa using hmem
                  unfold processObs
                  simp [htgt, hdisp, hex, htrim, hid, hnil, hmem']
                · have hmem' : tid ∉ s.processedTweetIds := by simpa using hmem
                  by_cases hcomb :
                      trimJ (combinedText (d :: threadWalk o.el o.siblings)) = []
                  · left
                    unfold processObs
                    simp [htgt, hdisp, hex, htrim, hid, hnil, hmem', hcomb]
                  · by_cases hacc :
                        MIN_TOTAL_WORDS ≤
                            wordCount (combinedText (d :: threadWalk o.el o.siblings)) ∨
                          hasMediaOrLinks (d :: threadWalk o.el o.siblings) = true
                    · right
                      refine ⟨d, tid, by omega, rfl, rfl,
                        resolvesId_eq_some.mpr ⟨htrim, hid, hnil⟩,
                        by simpa using hmem, hcomb, hacc, ?_⟩
                      unfold processObs
                      rcases hacc with h | h <;>
                        simp [htgt, hdisp, hex, htrim, hid, hnil, hmem', hcomb, h]
                    · left
                      rcases not_or.mp hacc with ⟨h1, h2⟩
                      unfold processObs
                      simp [htgt, hdisp, hex, htrim, hid, hnil, hmem', hcomb, h1, h2]

/-- Number of collected items whose url resolves to the given id. -/
def idCount (tid : JStr) (l : List CollectedItem) : Nat :=
  l.countP (fun c => decide (resolvesId c.url = some tid))

/-- Counting ids distributes over append. -/
theorem idCount_append (tid : JStr) (a b : List CollectedItem) :
    idCount tid (a ++ b) = idCount tid a + idCount tid b :=
  List.countP_append _ _ _

/-- The loop body preserves: the reference set `p` stays inside the ledger,
and for each id the number of collected items carrying it is 0 when the id
is in `p`, at most 1 when it is in the ledger, and 0 otherwise. -/
theorem processObs_inv (tgt : Nat) (p : List JStr) (s : LoopState) (o : Obs)
    (hsub : ∀ x ∈ p, x ∈ s.processedTweetIds)
    (hcnt : ∀ tid, idCount tid s.collectedContent ≤
      if tid ∈ p then 0 else if tid ∈ s.processedTweetIds then 1 else 0) :
    (∀ x ∈ p, x ∈ (processObs tgt s o).processedTweetIds) ∧
      (∀ tid, idCount tid (processObs tgt s o).collectedContent ≤
        if tid ∈ p then 0
        else if tid ∈ (processObs tgt s o).processedTweetIds then 1 else 0) := by
  rcases processObs_cases tgt s o with h | ⟨d, tid0, -, -, -, hres, hmem, -, -, heq⟩
  · rw [h]; exact ⟨hsub, hcnt⟩
  · have hmem' : tid0 ∉ s.processedTweetIds := by simpa using hmem
    have hp0 : tid0 ∉ p := fun hx => hmem' (hsub tid0 hx)
    rw [heq]
    constructor
    · intro x hx
      exact List.mem_append_left _ (hsub x hx)
    · intro tid
      have hsplit : idCount tid (s.collectedContent ++
          [⟨d :: threadWalk o.el o.siblings, d.url, d.timestamp⟩]) =
          idCount tid s.collectedContent +
            idCount tid [⟨d :: threadWalk o.el o.siblings, d.url, d.timestamp⟩] :=
        List.countP_append _ _ _
    -- the appended item resolves to tid0
      by_cases hta : tid = tid0
      · subst hta
        have h0 : idCount tid s.collectedContent = 0 := by
          have := hcnt tid
          simp [hp0, hmem'] at this
          omega
        have h1 : idCount tid [⟨d :: threadWalk o.el o.siblings, d.url, d.timestamp⟩] ≤ 1 := by
          simp [idCount, List.countP_cons, hres]
        have hmemapp : tid ∈ s.processedTweetIds ++ [tid] := by
          simp
        simp only [hsplit, h0, if_neg hp0, if_pos hmemapp]
        omega
      · have h1 : idCount tid [⟨d :: threadWalk o.el o.siblings, d.url, d.timestamp⟩] = 0 := by
          simp [idCount, List.countP_cons, hres]
          exact fun hh => hta (by cases hh; rfl)
        have hmemapp : tid ∈ s.processedTweetIds ++ [tid0] ↔ tid ∈ s.processedTweetIds := by
          simp [hta]
        rw [hsplit, h1]
        by_cases hp : tid ∈ p
        · simpa [hp] using hcnt tid
        · by_cases hpr : tid ∈ s.processedTweetIds
          · simpa [hp, hpr, hmemapp.mpr hpr] using hcnt tid
          · have : tid ∉ s.processedTweetIds ++ [tid0] := fun hh => hpr (hmemapp.mp hh)
            simpa [hp, hpr, this] using hcnt tid

/-- The per-pass fold preserves the dedup invariant. -/
theorem runPass_inv (tgt : Nat) (p : List JStr) (obs : List Obs) (s : LoopState)
    (hsub : ∀ x ∈ p, x ∈ s.processedTweetIds)
    (hcnt : ∀ tid, idCount tid s.collectedContent ≤
      if tid ∈ p then 0 else if tid ∈ s.processedTweetIds then 1 else 0) :
    (∀ x ∈ p, x ∈ (runPass tgt s obs).processedTweetIds) ∧
      (∀ tid, idCount tid (runPass tgt s obs).collectedContent ≤
        if tid ∈ p then 0
        else if tid ∈ (runPass tgt s obs).processedTweetIds then 1 else 0) := by
  induction obs generalizing s with
  | nil => exact ⟨hsub, hcnt⟩
  | cons o rest ih =>
    have h := processObs_inv tgt p s o hsub hcnt
    exact ih (processObs tgt s o) h.1 h.2

/-- Across a sequence of passes against one ledger, each id appears in the
emitted results at most once — and never, if it was already in the ledger. -/
theorem discoveryRuns_count (tgt : Nat) (passes : List (List Obs)) (p : List JStr)
    (tid : JStr) :
    idCount tid ((discoveryRuns tgt passes p).1.flatten) ≤ if tid ∈ p then 0 else 1 := by
  induction passes generalizing p with
  | nil =>
    simp [discoveryRuns, idCount]
  | cons obs rest ih =>
    have hpass := runPass_inv tgt p obs ⟨p, [], 0⟩ (fun x hx => hx)
      (by intro t; simp [idCount])
    simp only [discoveryRuns, List.flatten_cons]
    rw [idCount_append]
    have h1 := hpass.2 tid
    have h2 := ih (runPass tgt ⟨p, [], 0⟩ obs).processedTweetIds
    by_cases hp : tid ∈ p
    · have hmem := hpass.1 tid hp
      simp only [if_pos hp] at h1 ⊢
      simp only [if_pos hmem] at h2
      omega
    · simp only [if_neg hp] at h1 ⊢
      by_cases hpr : tid ∈ (runPass tgt ⟨p, [], 0⟩ obs).processedTweetIds
      · simp only [if_pos hpr] at h1 h2
        omega
      · simp only [if_neg hpr] at h1 h2
        omega

/-- C1: for every sequence of discovery passes run against a single Dedup
Ledger instance (no compaction applied), an item with a given id is accepted
into the emitted result collections at most once: each id occurs at most
once among all items emitted over the instance's lifetime. -/
theorem dedup_accepts_each_id_at_most_once (tgt : Nat) (passes : List (List Obs))
    (tid : JStr) :
    idCount tid ((discoveryRuns tgt passes []).1.flatten) ≤ 1 := by
  simpa using discoveryRuns_count tgt passes [] tid

/-- C10: an observed item that is rejected by the acceptance predicate
(word count below `MIN_TOTAL_WORDS` and no media or links) leaves the loop
state — in particular the Dedup Ledger — unchanged, so its id stays
eligible; and an id is only ever added to the ledger together with an
accepted item resolving to that id being appended to the results. -/
theorem rejected_item_not_recorded :
    (∀ (tgt : Nat) (s : LoopState) (o : Obs) (d : TweetData) (tid : JStr),
      o.displayed = some true →
      extractTweetData o.el = some d →
      resolvesId d.url = some tid →
      trimJ (combinedText (d :: threadWalk o.el o.siblings)) ≠ [] →
      wordCount (combinedText (d :: threadWalk o.el o.siblings)) < MIN_TOTAL_WORDS →
      hasMediaOrLinks (d :: threadWalk o.el o.siblings) = false →
      processObs tgt s o = s) ∧
    (∀ (tgt : Nat) (s : LoopState) (o : Obs) (tid : JStr),
      tid ∈ (processObs tgt s o).processedTweetIds →
      tid ∈ s.processedTweetIds ∨
        ∃ c, (processObs tgt s o).collectedContent = s.collectedContent ++ [c] ∧
          resolvesId c.url = some tid) := by
  constructor
  · intro tgt s o d tid hdisp hex hres hcombne hwc hml
    rcases processObs_cases tgt s o with h | ⟨d2, tid2, -, -, hex2, -, -, -, hacc, -⟩
    · exact h
    · rw [hex] at hex2
      injection hex2 with hd
      subst hd
      rcases hacc with h | h
      · omega
      · rw [hml] at h
        cases h
  · intro tgt s o tid hmem
    rcases processObs_cases tgt s o with h | ⟨d, tid2, -, -, -, hres, -, -, -, heq⟩
    · rw [h] at hmem
      exact Or.inl hmem
    · rw [heq] at hmem
      rcases List.mem_append.mp hmem with h | h
      · exact Or.inl h
      · right
        refine ⟨⟨d :: threadWalk o.el o.siblings, d.url, d.timestamp⟩, ?_, ?_⟩
        · rw [heq]
        · have : tid = tid2 := by simpa using h
          rw [this]
          exact hres

/-- Witness for C10: a displayed observation with three words, no media and
no links is rejected and the state — initial ledger empty — is unchanged. -/
theorem rejected_item_not_recorded_witness :
    processObs THREADS_NEEDED ⟨[], [], 0⟩ obsReject = ⟨[], [], 0⟩ :=
  rejected_item_not_recorded.1 THREADS_NEEDED ⟨[], [], 0⟩ obsReject
    ⟨"just three words".toList, [], [], [], "https://x.com/u/status/9".toList, []⟩
    "9".toList (by decide) (by decide) (by decide) (by decide) (by decide) (by decide)

/-- C4: an item handle from which no permalink (and hence no non-empty id)
can be resolved is unextractable: the part_001 `extractTweetData` returns
`null` for it, and in the part_003 discovery loop such an item never changes
the loop state — it is not collected — and processing of the remaining
items of the pass is exactly the processing without it. -/
theorem unextractable_item_skipped :
    (∀ el : TweetElement1,
      (∀ t, tweetIdOfUrl el.statusHref = some t → t = []) →
      extractTweetData1 el = none) ∧
    (∀ (tgt : Nat) (s : LoopState) (o : Obs),
      (∀ t, tweetIdOfUrl o.el.statusHref = some t → t = []) →
      processObs tgt s o = s) ∧
    (∀ (tgt : Nat) (s : LoopState) (o : Obs) (rest : List Obs),
      (∀ t, tweetIdOfUrl o.el.statusHref = some t → t = []) →
      runPass tgt s (o :: rest) = runPass tgt s rest) := by
  have hskip : ∀ (tgt : Nat) (s : LoopState) (o : Obs),
      (∀ t, tweetIdOfUrl o.el.statusHref = some t → t = []) →
      processObs tgt s o = s := by
    intro tgt s o h
    rcases processObs_cases tgt s o with heq | ⟨d, tid, -, -, hex, hres, -, -, -, -⟩
    · exact heq
    · rcases resolvesId_eq_some.mp hres with ⟨-, hid, hnil⟩
      have hurl := (extractTweetData_fields hex).1
      rw [hurl] at hid
      exact absurd (h tid hid) hnil
  refine ⟨?_, hskip, ?_⟩
  · intro el h
    unfold extractTweetData1
    by_cases hu : el.statusHref = []
    · simp [hu]
    · cases ht : tweetIdOfUrl el.statusHref with
      | none => simp [hu, ht]
      | some t =>
        have ht0 := h t ht
        subst ht0
        simp [hu, ht]
  · intro tgt s o rest h
    show List.foldl (processObs tgt) s (o :: rest) = _
    rw [List.foldl_cons, hskip tgt s o h]
    rfl

/-- Witness for C4: an element whose permalink read failed (`""` href)
yields `null` from the part_001 extractor, and an observation with the same
defect leaves the loop state unchanged while the rest of the pass proceeds
as if it were absent. -/
theorem unextractable_item_skipped_witness :
    extractTweetData1 el1NoUrl = none ∧
      processObs THREADS_NEEDED ⟨[], [], 0⟩ obsNoUrl = ⟨[], [], 0⟩ ∧
      runPass THREADS_NEEDED ⟨[], [], 0⟩ [obsNoUrl, obsAccept] =
        runPass THREADS_NEEDED ⟨[], [], 0⟩ [obsAccept] := by
  have hnone : ∀ t, tweetIdOfUrl (([] : JStr)) = some t → t = [] := by
    intro t h
    rw [show tweetIdOfUrl ([] : JStr) = none from rfl] at h
    cases h
  exact ⟨unextractable_item_skipped.1 el1NoUrl hnone,
    unextractable_item_skipped.2.1 THREADS_NEEDED ⟨[], [], 0⟩ obsNoUrl hnone,
    unextractable_item_skipped.2.2 THREADS_NEEDED ⟨[], [], 0⟩ obsNoUrl [obsAccept] hnone⟩

/-- Direct computation of an accepted item: when every guard passes and the
acceptance predicate holds, the loop body appends the id and the thread. -/
theorem processObs_accepts (tgt : Nat) (s : LoopState) (o : Obs) (d : TweetData)
    (tid : JStr)
    (htgt : s.validTweetsCount < tgt)
    (hdisp : o.displayed = some true)
    (hex : extractTweetData o.el = some d)
    (hres : resolvesId d.url = some tid)
    (hmem : s.processedTweetIds.contains tid = false)
    (hcomb : trimJ (combinedText (d :: threadWalk o.el o.siblings)) ≠ [])
    (hacc : MIN_TOTAL_WORDS ≤ wordCount (combinedText (d :: threadWalk o.el o.siblings)) ∨
      hasMediaOrLinks (d :: threadWalk o.el o.siblings) = true) :
    processObs tgt s o =
      ⟨s.processedTweetIds ++ [tid],
       s.collectedContent ++ [⟨d :: threadWalk o.el o.siblings, d.url, d.timestamp⟩],
       s.validTweetsCount + 1⟩ := by
  rcases resolvesId_eq_some.mp hres with ⟨htrim, hid, hnil⟩
  have hmem' : tid ∉ s.processedTweetIds := by simpa using hmem
  have htgt' : ¬tgt ≤ s.validTweetsCount := by omega
  unfold processObs
  rcases hacc with h | h <;>
    simp [htgt', hdisp, hex, htrim, hid, hnil, hmem', hcomb, h]

/-- Counterexample to C7: `obsWhite` is an extracted, displayed item with a
fresh resolvable id whose segments contain an image, so the claimed
acceptance predicate (word count ≥ threshold OR media/link present) holds;
yet the loop rejects it — the combined text is whitespace-only, and the
blank-text guard of line 451 precedes the predicate — leaving the state,
including the Dedup Ledger, unchanged. -/
theorem acceptance_iff_counterexample :
    obsId obsWhite = some ['1'] ∧
      extractTweetData elWhite =
        some ⟨[' '], [], ["i".toList], [], "https://x.com/u/status/1".toList, []⟩ ∧
      threadWalk elWhite [] = [] ∧
      hasMediaOrLinks
        [⟨[' '], [], ["i".toList], [], "https://x.com/u/status/1".toList, []⟩] = true ∧
      processObs THREADS_NEEDED ⟨[], [], 0⟩ obsWhite = ⟨[], [], 0⟩ := by
  refine ⟨by decide, by decide, by decide, by decide, by decide⟩

/-- C7 (amended): a displayed, extracted item with a fresh resolvable id,
while the target is unmet, is accepted if and only if its combined segment
text is non-blank AND (its word count reaches `MIN_TOTAL_WORDS` OR some
image, video or link is present across its segments); on acceptance its id
is appended to the Dedup Ledger and the assembled thread to the results. -/
theorem acceptance_predicate_amended (tgt : Nat) (s : LoopState) (o : Obs)
    (d : TweetData) (tid : JStr)
    (htgt : s.validTweetsCount < tgt)
    (hdisp : o.displayed = some true)
    (hex : extractTweetData o.el = some d)
    (hres : resolvesId d.url = some tid)
    (hmem : s.processedTweetIds.contains tid = false) :
    (processObs tgt s o ≠ s ↔
      trimJ (combinedText (d :: threadWalk o.el o.siblings)) ≠ [] ∧
        (MIN_TOTAL_WORDS ≤ wordCount (combinedText (d :: threadWalk o.el o.siblings)) ∨
          hasMediaOrLinks (d :: threadWalk o.el o.siblings) = true)) ∧
      (processObs tgt s o ≠ s →
        (processObs tgt s o).processedTweetIds = s.processedTweetIds ++ [tid] ∧
          (processObs tgt s o).collectedContent =
            s.collectedContent ++
              [⟨d :: threadWalk o.el o.siblings, d.url, d.timestamp⟩]) := by
  have hchar : ∀ d2 tid2, extractTweetData o.el = some d2 →
      resolvesId d2.url = some tid2 → d2 = d ∧ tid2 = tid := by
    intro d2 tid2 hex2 hres2
    rw [hex] at hex2
    injection hex2 with hd
    subst hd
    rw [hres] at hres2
    injection hres2 with ht
    exact ⟨rfl, ht.symm⟩
  constructor
  · constructor
    · intro hne
      rcases processObs_cases tgt s o with h | ⟨d2, tid2, -, -, hex2, hres2, -, hcomb, hacc, -⟩
      · exact absurd h hne
      · rcases hchar d2 tid2 hex2 hres2 with ⟨hd, -⟩
        subst hd
        exact ⟨hcomb, hacc⟩
    · rintro ⟨hcomb, hacc⟩
      rw [processObs_accepts tgt s o d tid htgt hdisp hex hres hmem hcomb hacc]
      intro hcontra
      have : s.validTweetsCount + 1 = s.validTweetsCount := congrArg LoopState.validTweetsCount hcontra
      omega
  · intro hne
    rcases processObs_cases tgt s o with h | ⟨d2, tid2, -, -, hex2, hres2, -, -, -, heq⟩
    · exact absurd h hne
    · rcases hchar d2 tid2 hex2 hres2 with ⟨hd, ht⟩
      subst hd
      subst ht
      rw [heq]
      exact ⟨rfl, rfl⟩

/-- Witness for C7 (amended): the item with one word of text and one image —
the claim's own example — is accepted: its id `"7"` enters the ledger and the
single-segment thread is appended to the results. -/
theorem acceptance_predicate_amended_witness :
    processObs THREADS_NEEDED ⟨[], [], 0⟩ obsAccept ≠ ⟨[], [], 0⟩ ∧
      (processObs THREADS_NEEDED ⟨[], [], 0⟩ obsAccept).processedTweetIds = [['7']] := by
  have h := acceptance_predicate_amended THREADS_NEEDED ⟨[], [], 0⟩ obsAccept
    ⟨"hello".toList, [], ["img".toList], [], "https://x.com/u/status/7".toList, []⟩
    ['7'] (by decide) (by decide) (by decide) (by decide) (by decide)
  have hne : processObs THREADS_NEEDED ⟨[], [], 0⟩ obsAccept ≠ ⟨[], [], 0⟩ :=
    h.1.mpr ⟨by decide, Or.inr (by decide)⟩
  exact ⟨hne, by rw [(h.2 hne).1]; rfl⟩

/-- The author of an empty permalink never resolves. -/
theorem hrefAuthor_nil : hrefAuthor ([] : JStr) = none := rfl

/-- C6: the thread walk is a contiguous same-author run: it yields no
segment without a sibling; a segment is produced from the next sibling
exactly when the sibling holds a tweet, head and sibling resolve the same
non-empty author from their permalinks, and the sibling's extracted text is
non-empty — and then the walk continues on the remaining siblings, so it
stops, without error, at the first mismatch, absence or empty text.  On the
concrete feed of three `alice` tweets followed by a `bob` tweet, the walk
from the first yields exactly two further segments, giving a three-segment
thread whose permalinks all resolve author `alice`. -/
theorem thread_walk_same_author :
    (∀ headEl : TweetElement, threadWalk headEl [] = []) ∧
    (∀ (headEl : TweetElement) (c : Container) (rest : List Container)
        (d : TweetData) (ds : List TweetData),
      threadWalk headEl (c :: rest) = d :: ds ↔
        ∃ nt a, c.tweet = some nt ∧
          hrefAuthor headEl.statusHref = some a ∧
          hrefAuthor nt.statusHref = some a ∧
          a ≠ [] ∧
          extractTweetData nt = some d ∧
          d.text ≠ [] ∧
          ds = threadWalk headEl rest) ∧
    threadWalk elA1 sibsA =
      [⟨"alpha two".toList, [], [], [], "https://x.com/alice/status/2".toList, []⟩,
       ⟨"alpha three".toList, [], [], [], "https://x.com/alice/status/3".toList, []⟩] ∧
    (⟨"alpha one".toList, [], [], [], "https://x.com/alice/status/1".toList, []⟩ ::
        threadWalk elA1 sibsA).length = 3 ∧
    (∀ t ∈ (⟨"alpha one".toList, [], [], [], "https://x.com/alice/status/1".toList,
        []⟩ :: threadWalk elA1 sibsA), hrefAuthor t.url = some "alice".toList) := by
  refine ⟨fun headEl => rfl, ?_, by decide, by decide, by decide⟩
  intro headEl c rest d ds
  constructor
  · intro hwalk
    simp only [threadWalk] at hwalk
    rcases hct : c.tweet with - | nt <;> rw [hct] at hwalk
    · cases hwalk
    · dsimp only at hwalk
      split at hwalk
      · cases hwalk
      next hguard =>
        split at hwalk
        next oa na hoa hna =>
          split at hwalk
          · cases hwalk
          next hautho =>
            have hautho' : (oa ≠ [] ∧ na ≠ []) ∧ oa = na := by
              simpa using hautho
            split at hwalk
            next d2 hex =>
              split at hwalk
              · cases hwalk
              next htext =>
                injection hwalk with h1 h2
                subst h1
                exact ⟨nt, oa, rfl, hoa, hautho'.2 ▸ hna, hautho'.1.1, hex,
                  htext, h2.symm⟩
            · cases hwalk
        · cases hwalk
  · rintro ⟨nt, a, hct, hha, hna, hane, hex, htext, hds⟩
    subst hds
    have hh1 : headEl.statusHref ≠ [] := by
      intro hh
      rw [hh, hrefAuthor_nil] at hha
      cases hha
    have hh2 : nt.statusHref ≠ [] := by
      intro hh
      rw [hh, hrefAuthor_nil] at hna
      cases hna
    simp only [threadWalk, hct]
    simp [hh1, hh2, hha, hna, hane, hex, htext]

/-- The stall/height update never touches the loop-state, the attempt
counter or the same-content counter, and signals a break only when the
height-stall counter has reached `MAX_NO_NEW_TWEETS`. -/
theorem heightStep_spec (p h : Nat) (st : ScrollState) :
    (heightStep p h st).1.ls = st.ls ∧
      (heightStep p h st).1.scrollAttempts = st.scrollAttempts ∧
      (heightStep p h st).1.sameContentCount = st.sameContentCount ∧
      ((heightStep p h st).2 = true →
        MAX_NO_NEW_TWEETS ≤ (heightStep p h st).1.noNewTweetsCount) := by
  unfold heightStep
  split
  · exact ⟨rfl, rfl, rfl, by intro hh; cases hh⟩
  · split
    · refine ⟨rfl, rfl, rfl, ?_⟩
      intro hh
      simpa using hh
    · exact ⟨rfl, rfl, rfl, by intro hh; cases hh⟩

/-- The seen-tracking update only touches `lastSeenTweetIds` and
`sameContentCount`. -/
theorem seenUpdate_spec (ps : PassState) (st1 : ScrollState) :
    (seenUpdate ps st1).ls = st1.ls ∧
      (seenUpdate ps st1).scrollAttempts = st1.scrollAttempts := by
  unfold seenUpdate
  exact ⟨rfl, rfl⟩

/-- A failing scroll command exits the loop immediately and gracefully,
returning the state collected so far. -/
theorem runLoop_scroll_failure (trace : Nat → ScrollIter) (fuel i : Nat)
    (st : ScrollState)
    (hfail : (trace i).scrollOk = false)
    (hvalid : st.ls.validTweetsCount < THREADS_NEEDED)
    (hatt : st.scrollAttempts < MAX_SCROLL_ATTEMPTS) :
    runLoop trace (fuel + 1) i st = (st, ExitKind.scrollFailure) := by
  unfold runLoop
  simp [Nat.not_le.mpr hvalid, Nat.not_le.mpr hatt, hfail]

/-- With fuel exceeding the remaining attempt budget, the scroll loop either
reaches one of its normal exits — with the matching condition holding at the
final state — or exits abnormally because a document-height read failed at
some iteration. -/
theorem runLoop_normal (trace : Nat → ScrollIter) :
    ∀ (fuel i : Nat) (st : ScrollState),
      MAX_SCROLL_ATTEMPTS < fuel + st.scrollAttempts →
      NormalExit (runLoop trace fuel i st) ∨
        ((runLoop trace fuel i st).2 = ExitKind.heightReadError ∧
          ∃ j, (trace j).heightOk = false) := by
  intro fuel
  induction fuel with
  | zero =>
    intro i st h
    unfold runLoop
    by_cases h1 : THREADS_NEEDED ≤ st.ls.validTweetsCount
    · simp only [if_pos h1]
      exact Or.inl (Or.inl ⟨rfl, h1⟩)
    · have h2 : MAX_SCROLL_ATTEMPTS ≤ st.scrollAttempts := by omega
      simp only [if_neg h1, if_pos h2]
      exact Or.inl (Or.inr (Or.inl ⟨rfl, h2⟩))
  | succ fuel ih =>
    intro i st h
    unfold runLoop
    by_cases h1 : THREADS_NEEDED ≤ st.ls.validTweetsCount
    · simp only [if_pos h1]
      exact Or.inl (Or.inl ⟨rfl, h1⟩)
    · by_cases h2 : MAX_SCROLL_ATTEMPTS ≤ st.scrollAttempts
      · simp only [if_neg h1, if_pos h2]
        exact Or.inl (Or.inr (Or.inl ⟨rfl, h2⟩))
      · simp only [if_neg h1, if_neg h2]
        cases hscroll : (trace i).scrollOk with
        | false =>
          simp only [hscroll, Bool.not_false, if_pos]
          exact Or.inl (Or.inr (Or.inr (Or.inr (Or.inr rfl))))
        | true =>
          simp only [hscroll, Bool.not_true, Bool.false_eq_true, if_neg,
            not_false_eq_true]
          cases hheight : (trace i).heightOk with
          | false =>
            simp only [hheight, Bool.not_false, if_pos]
            exact Or.inr ⟨trivial, i, hheight⟩
          | true =>
            simp only [hheight, Bool.not_true, Bool.false_eq_true, if_neg,
              not_false_eq_true]
            cases hfind : (trace i).findOk with
            | false =>
              simp only [hfind, Bool.not_false, if_pos]
              exact ih (i + 1) _ (by simp; omega)
            | true =>
              simp only [hfind, Bool.not_true, Bool.false_eq_true, if_neg,
                not_false_eq_true]
              split
              · split
                next hhs =>
                  exact Or.inl (Or.inr (Or.inr (Or.inr (Or.inl
                    ⟨rfl, (heightStep_spec _ _ _).2.2.2 hhs⟩))))
                next hhs =>
                  refine ih (i + 1) _ ?_
                  simp only
                  rw [(heightStep_spec _ _ _).2.1, (seenUpdate_spec _ _).2]
                  simp only
                  omega
              · split
                next hscc =>
                  exact Or.inl (Or.inr (Or.inr (Or.inl ⟨rfl, hscc⟩)))
                next hscc =>
                  split
                  next hhs =>
                    exact Or.inl (Or.inr (Or.inr (Or.inr (Or.inl
                      ⟨rfl, (heightStep_spec _ _ _).2.2.2 hhs⟩))))
                  next hhs =>
                    refine ih (i + 1) _ ?_
                    simp only
                    rw [(heightStep_spec _ _ _).2.1]
                    simp only
                    omega


/-- Potential for bounding ledger growth in one `findContent` call: ledger
size plus remaining accept budget. -/
def ledgerPotential (ls : LoopState) : Nat :=
  ls.processedTweetIds.length + (THREADS_NEEDED - ls.validTweetsCount)

/-- Each item processed keeps the potential non-increasing: an accept grows
the ledger by one but consumes one unit of accept budget. -/
theorem processObs_potential (s : LoopState) (o : Obs) :
    ledgerPotential (processObs THREADS_NEEDED s o) ≤ ledgerPotential s := by
  rcases processObs_cases THREADS_NEEDED s o with h | ⟨d, tid, hlt, -, -, -, -, -, -, heq⟩
  · rw [h]
  · rw [heq]
    unfold ledgerPotential
    simp only [List.length_append, List.length_cons, List.length_nil]
    omega

/-- The full per-item body keeps the potential non-increasing. -/
theorem processObsFull_potential (lastSeen : List JStr) (acc : PassState) (o : Obs) :
    ledgerPotential (processObsFull THREADS_NEEDED lastSeen acc o).ls ≤
      ledgerPotential acc.ls := by
  unfold processObsFull
  split
  · exact Nat.le_refl _
  · exact processObs_potential acc.ls o

/-- A whole pass keeps the potential non-increasing. -/
theorem passFold_potential (lastSeen : List JStr) (obs : List Obs) (acc : PassState) :
    ledgerPotential ((obs.foldl (processObsFull THREADS_NEEDED lastSeen) acc).ls) ≤
      ledgerPotential acc.ls := by
  induction obs generalizing acc with
  | nil => exact Nat.le_refl _
  | cons o rest ihp =>
    exact Nat.le_trans (ihp (processObsFull THREADS_NEEDED lastSeen acc o))
      (processObsFull_potential lastSeen acc o)

/-- The whole scroll loop keeps the potential non-increasing. -/
theorem runLoop_potential (trace : Nat → ScrollIter) :
    ∀ (fuel i : Nat) (st : ScrollState),
      ledgerPotential ((runLoop trace fuel i st).1.ls) ≤ ledgerPotential st.ls := by
  intro fuel
  induction fuel with
  | zero =>
    intro i st
    unfold runLoop
    split
    · exact Nat.le_refl _
    · split
      · exact Nat.le_refl _
      · exact Nat.le_refl _
  | succ fuel ih =>
    intro i st
    unfold runLoop
    by_cases h1 : THREADS_NEEDED ≤ st.ls.validTweetsCount
    · simp only [if_pos h1]
      exact Nat.le_refl _
    · by_cases h2 : MAX_SCROLL_ATTEMPTS ≤ st.scrollAttempts
      · simp only [if_neg h1, if_pos h2]
        exact Nat.le_refl _
      · simp only [if_neg h1, if_neg h2]
        cases hscroll : (trace i).scrollOk with
        | false =>
          simp only [hscroll, Bool.not_false, if_pos]
          exact Nat.le_refl _
        | true =>
          simp only [hscroll, Bool.not_true, Bool.false_eq_true, if_neg,
            not_false_eq_true]
          cases hheight : (trace i).heightOk with
          | false =>
            simp only [hheight, Bool.not_false, if_pos]
            exact Nat.le_refl _
          | true =>
           simp only [hheight, Bool.not_true, Bool.false_eq_true, if_neg,
             not_false_eq_true]
           cases hfind : (trace i).findOk with
           | false =>
             simp only [hfind, Bool.not_false, if_pos]
             exact ih (i + 1) _
           | true =>
            simp only [hfind, Bool.not_true, Bool.false_eq_true, if_neg,
              not_false_eq_true]
            have hpass := passFold_potential st.lastSeenTweetIds (trace i).obs
              ⟨st.ls, [], 0⟩
            dsimp only [ledgerPotential]
            split
            · split
              next hhs =>
                refine Nat.le_trans (Nat.le_of_eq ?_) hpass
                rw [(heightStep_spec _ _ _).1, (seenUpdate_spec _ _).1]
                rfl
              next hhs =>
                refine Nat.le_trans (ih (i + 1) _) ?_
                refine Nat.le_trans (Nat.le_of_eq ?_) hpass
                simp only
                rw [(heightStep_spec _ _ _).1, (seenUpdate_spec _ _).1]
            · split
              next hscc =>
                exact Nat.le_trans (Nat.le_of_eq rfl) hpass
              next hscc =>
                split
                next hhs =>
                  refine Nat.le_trans (Nat.le_of_eq ?_) hpass
                  rw [(heightStep_spec _ _ _).1]
                  rfl
                next hhs =>
                  refine Nat.le_trans (ih (i + 1) _) ?_
                  refine Nat.le_trans (Nat.le_of_eq ?_) hpass
                  simp only
                  rw [(heightStep_spec _ _ _).1]

/-- One completed `findContent` call grows the (compacted) ledger by at most
`THREADS_NEEDED` ids. -/
theorem findContentLedger_length (p : List JStr) (trace : Nat → ScrollIter) :
    (findContentLedger p trace).length ≤
      (clearProcessedIds p).length + THREADS_NEEDED := by
  have h := runLoop_potential trace (MAX_SCROLL_ATTEMPTS + 1) 0 (initialScrollState p)
  have hinit : ledgerPotential (initialScrollState p).ls =
      (clearProcessedIds p).length + THREADS_NEEDED := by
    simp [initialScrollState, ledgerPotential]
  rw [hinit] at h
  unfold findContentLedger
  exact Nat.le_trans (Nat.le_add_right _ _) h

/-- Compaction brings any reachable ledger size back under the ceiling. -/
theorem clearProcessedIds_length_le (p : List JStr)
    (h : p.length ≤ MAX_PROCESSED_IDS + THREADS_NEEDED) :
    (clearProcessedIds p).length ≤ MAX_PROCESSED_IDS := by
  have hmx : MAX_PROCESSED_IDS = 10000 := rfl
  have htn : THREADS_NEEDED = 10 := rfl
  unfold clearProcessedIds
  split
  next hover =>
    simp only [List.length_drop]
    rw [hmx] at hover ⊢
    rw [hmx, htn] at h
    omega
  next hover =>
    omega

/-- The ledger of a service instance never exceeds ceiling plus one call's
growth at any call boundary. -/
theorem ledgerAfterRuns_length (traces : List (Nat → ScrollIter)) :
    (ledgerAfterRuns traces).length ≤ MAX_PROCESSED_IDS + THREADS_NEEDED := by
  suffices hgen : ∀ (ts : List (Nat → ScrollIter)) (p : List JStr),
      p.length ≤ MAX_PROCESSED_IDS + THREADS_NEEDED →
      (ts.foldl findContentLedger p).length ≤ MAX_PROCESSED_IDS + THREADS_NEEDED by
    exact hgen traces [] (by simp)
  intro ts
  induction ts with
  | nil => intro p hp; exact hp
  | cons t rest iht =>
    intro p hp
    refine iht (findContentLedger p t) ?_
    have h1 := findContentLedger_length p t
    have h2 := clearProcessedIds_length_le p hp
    omega

/-- Compaction splits the ledger into a discarded prefix — the oldest
`size / 2` ids when oversized, nothing otherwise — and the retained,
most-recently-inserted suffix. -/
theorem clearProcessedIds_suffix (l : List JStr) :
    ∃ old, l = old ++ clearProcessedIds l ∧
      old.length = if MAX_PROCESSED_IDS < l.length then l.length / 2 else 0 := by
  by_cases h : MAX_PROCESSED_IDS < l.length
  · refine ⟨l.take (l.length / 2), ?_, ?_⟩
    · rw [clearProcessedIds, if_pos h, List.take_append_drop]
    · rw [List.length_take, if_pos h]
      exact Nat.min_eq_left (Nat.div_le_self _ _)
  · exact ⟨[], by rw [clearProcessedIds, if_neg h]; rfl, by simp [h]⟩

/-- C2: at every point where `findContent` runs compaction — i.e. on any
ledger reachable by a sequence of completed calls — if the ledger size
exceeds `MAX_PROCESSED_IDS` then compaction discards exactly the oldest
`size / 2` ids (a prefix, in insertion order) and retains the
most-recently-added suffix, and the resulting size is at most the ceiling;
if the size does not exceed the ceiling, compaction leaves the ledger
unchanged (the discarded prefix is empty). -/
theorem ledger_compaction_bounded (traces : List (Nat → ScrollIter)) :
    (ledgerAfterRuns traces).length ≤ MAX_PROCESSED_IDS + THREADS_NEEDED ∧
      (clearProcessedIds (ledgerAfterRuns traces)).length ≤ MAX_PROCESSED_IDS ∧
      (∃ old, ledgerAfterRuns traces = old ++ clearProcessedIds (ledgerAfterRuns traces) ∧
        old.length = if MAX_PROCESSED_IDS < (ledgerAfterRuns traces).length
          then (ledgerAfterRuns traces).length / 2 else 0) ∧
      clearProcessedIds (ledgerAfterRuns traces) =
        (if MAX_PROCESSED_IDS < (ledgerAfterRuns traces).length
          then (ledgerAfterRuns traces).drop ((ledgerAfterRuns traces).length / 2)
          else ledgerAfterRuns traces) := by
  refine ⟨ledgerAfterRuns_length traces,
    clearProcessedIds_length_le _ (ledgerAfterRuns_length traces),
    clearProcessedIds_suffix _, ?_⟩
  rfl

/-- Counterexample to C8: with a session whose scroll command fails at once,
the loop exits — returning the (empty) collection — although none of the
three claimed exit conditions holds at the final state: the target is not
reached, the attempt ceiling is not reached, and neither stall threshold is
reached.  The loop therefore does not exit exactly at those three
conditions. -/
theorem loop_exit_conditions_counterexample :
    runLoop scrollFailTrace (MAX_SCROLL_ATTEMPTS + 1) 0 (initialScrollState []) =
        (initialScrollState [], ExitKind.scrollFailure) ∧
      (initialScrollState []).ls.validTweetsCount < THREADS_NEEDED ∧
      (initialScrollState []).scrollAttempts < MAX_SCROLL_ATTEMPTS ∧
      (initialScrollState []).sameContentCount < 10 ∧
      (initialScrollState []).noNewTweetsCount < MAX_NO_NEW_TWEETS := by
  refine ⟨by decide, by decide, by decide, by decide, by decide⟩

/-- C8 (amended): every execution of the scroll loop terminates.  It either
exits normally — exactly when the target count is reached, the scroll
attempts reach `MAX_SCROLL_ATTEMPTS`, one of the two stall thresholds is
reached, or the scroll command fails, in all of which cases `findContent`
returns the collected list, possibly empty — or it exits abnormally because
the unguarded document-height read of line 273 threw, in which case the
error propagates out of `findContent` (rethrown at lines 538-541).  When
every height read of the session succeeds, only the normal exits are
possible. -/
theorem loop_terminates_normally (trace : Nat → ScrollIter) (processed : List JStr) :
    (NormalExit (runLoop trace (MAX_SCROLL_ATTEMPTS + 1) 0 (initialScrollState processed)) ∨
      ((runLoop trace (MAX_SCROLL_ATTEMPTS + 1) 0 (initialScrollState processed)).2 =
          ExitKind.heightReadError ∧
        findContentModel processed true trace =
          Except.error SessionError.heightRead)) ∧
      ((∀ j, (trace j).heightOk = true) →
        NormalExit (runLoop trace (MAX_SCROLL_ATTEMPTS + 1) 0
          (initialScrollState processed))) ∧
      (NormalExit (runLoop trace (MAX_SCROLL_ATTEMPTS + 1) 0
          (initialScrollState processed)) →
        findContentModel processed true trace =
          Except.ok (runLoop trace (MAX_SCROLL_ATTEMPTS + 1) 0
            (initialScrollState processed)).1.ls.collectedContent) := by
  have hcls := runLoop_normal trace (MAX_SCROLL_ATTEMPTS + 1) 0
    (initialScrollState processed) (by simp [initialScrollState])
  have hne : NormalExit (runLoop trace (MAX_SCROLL_ATTEMPTS + 1) 0
      (initialScrollState processed)) →
      ¬(runLoop trace (MAX_SCROLL_ATTEMPTS + 1) 0 (initialScrollState processed)).2 =
        ExitKind.heightReadError := by
    intro hn
    rcases hn with ⟨h, -⟩ | ⟨h, -⟩ | ⟨h, -⟩ | ⟨h, -⟩ | h <;>
      (rw [h]; intro hh; cases hh)
  refine ⟨?_, ?_, ?_⟩
  · rcases hcls with hn | ⟨herr, -⟩
    · exact Or.inl hn
    · refine Or.inr ⟨herr, ?_⟩
      simp [findContentModel, herr]
  · intro hall
    rcases hcls with hn | ⟨-, j, hj⟩
    · exact hn
    · rw [hall j] at hj
      cases hj
  · intro hn
    simp [findContentModel, hne hn]

/-- Witness for C8 (amended): the scroll-failing session — all of whose
height reads succeed — exits normally and `findContent` returns the empty
collection. -/
theorem loop_terminates_normally_witness :
    NormalExit (runLoop scrollFailTrace (MAX_SCROLL_ATTEMPTS + 1) 0
        (initialScrollState [])) ∧
      findContentModel [] true scrollFailTrace = Except.ok [] := by
  have h := loop_terminates_normally scrollFailTrace []
  have hn := h.2.1 (fun _ => rfl)
  refine ⟨hn, ?_⟩
  rw [h.2.2 hn]
  rfl

/-- Counterexample to C9: the scroll command fails at the first iteration,
yet `findContent` neither rethrows nor aborts — the loop breaks out via the
catch of line 270 and the call returns the partial (here empty) result
normally. -/
theorem scroll_failure_swallowed_counterexample :
    findContentModel [] true scrollFailTrace = Except.ok [] ∧
      (runLoop scrollFailTrace (MAX_SCROLL_ATTEMPTS + 1) 0 (initialScrollState [])).2 =
        ExitKind.scrollFailure := by
  exact ⟨rfl, by decide⟩

/-- C9 (amended): a scroll-command failure during a discovery pass is caught
by the loop: the loop stops immediately and `findContent` returns normally
with the content collected so far — that error never propagates.  The errors
that do propagate out of `findContent` are exactly a failure of the initial
content wait, before any scrolling (lines 220-223), and a failure of the
unguarded document-height read inside the loop (line 273, rethrown at lines
538-541). -/
theorem scroll_failure_is_graceful (trace : Nat → ScrollIter) (fuel i : Nat)
    (st : ScrollState) (processed : List JStr)
    (hfail : (trace i).scrollOk = false)
    (hvalid : st.ls.validTweetsCount < THREADS_NEEDED)
    (hatt : st.scrollAttempts < MAX_SCROLL_ATTEMPTS) :
    runLoop trace (fuel + 1) i st = (st, ExitKind.scrollFailure) ∧
      ((runLoop trace (MAX_SCROLL_ATTEMPTS + 1) 0 (initialScrollState processed)).2 =
          ExitKind.scrollFailure →
        findContentModel processed true trace =
          Except.ok (runLoop trace (MAX_SCROLL_ATTEMPTS + 1) 0
            (initialScrollState processed)).1.ls.collectedContent) ∧
      (∀ e, findContentModel processed true trace = Except.error e →
        e = SessionError.heightRead ∧
          (runLoop trace (MAX_SCROLL_ATTEMPTS + 1) 0 (initialScrollState processed)).2 =
            ExitKind.heightReadError) ∧
      findContentModel processed false trace = Except.error SessionError.initialWait := by
  refine ⟨runLoop_scroll_failure trace fuel i st hfail hvalid hatt, ?_, ?_, rfl⟩
  · intro hsf
    have hne : ¬(runLoop trace (MAX_SCROLL_ATTEMPTS + 1) 0
        (initialScrollState processed)).2 = ExitKind.heightReadError := by
      rw [hsf]
      intro hh
      cases hh
    simp [findContentModel, hne]
  · intro e he
    by_cases hr : (runLoop trace (MAX_SCROLL_ATTEMPTS + 1) 0
        (initialScrollState processed)).2 = ExitKind.heightReadError
    · simp [findContentModel, hr] at he
      exact ⟨he.symm, hr⟩
    · simp [findContentModel, hr] at he

/-- Witness for C9 (amended): the always-failing session exits the loop
immediately from the fresh initial state, and `findContent` on it returns
the empty collection normally. -/
theorem scroll_failure_is_graceful_witness :
    runLoop scrollFailTrace (MAX_SCROLL_ATTEMPTS + 1) 0 (initialScrollState [['9']]) =
        (initialScrollState [['9']], ExitKind.scrollFailure) ∧
      findContentModel [['9']] true scrollFailTrace = Except.ok [] := by
  have h := scroll_failure_is_graceful scrollFailTrace MAX_SCROLL_ATTEMPTS 0
    (initialScrollState [['9']]) [['9']] (by decide) (by decide) (by decide)
  refine ⟨h.1, ?_⟩
  rw [h.2.1 (by decide)]
  rfl

/-- Counterexample to C3: under the part_003 rate governor, with the caller
re-entering as soon as each call returns, three calls entering at times
60000, 60001 and 120001 return at 60000, 120000 and 120001: the second and
third returns are 1 ms apart — far less than `RATE_LIMIT_DELAY` — and the
second call records timestamp 60001, not its return time 120000. -/
theorem rate_governor_counterexample :
    checkRateLimit 0 60000 = (60000, 60000) ∧
      checkRateLimit 60000 60001 = (60001, 120000) ∧
      checkRateLimit 60001 120001 = (120001, 120001) ∧
      (checkRateLimit 0 60000).2 ≤ 60001 ∧
      (checkRateLimit 60000 60001).2 ≤ 120001 ∧
      (checkRateLimit 60001 120001).2 - (checkRateLimit 60000 60001).2 <
        RATE_LIMIT_DELAY ∧
      (checkRateLimit 60000 60001).1 ≠ (checkRateLimit 60000 60001).2 := by
  refine ⟨by decide, by decide, by decide, by decide, by decide, by decide, by decide⟩

/-- C3 (amended): the part_003 `checkRateLimit` never fails; it records the
call's entry time (not its return time) as the new `lastRequestTime`, and it
suspends the caller until at least `RATE_LIMIT_DELAY` has elapsed since the
previously recorded timestamp — so each return comes at least
`RATE_LIMIT_DELAY` after the previous call's entry, but consecutive returns
may be closer than `RATE_LIMIT_DELAY`.  The part_002 variant records the
return time instead, and with it consecutive returns are always at least
`RATE_LIMIT_DELAY` apart. -/
theorem rate_governor_entry_spacing (last now : Nat) (hle : last ≤ now) :
    (checkRateLimit last now).1 = now ∧
      last + RATE_LIMIT_DELAY ≤ (checkRateLimit last now).2 ∧
      now ≤ (checkRateLimit last now).2 ∧
      (∀ e2, (checkRateLimit last now).2 ≤ e2 →
        now + RATE_LIMIT_DELAY ≤ (checkRateLimit (checkRateLimit last now).1 e2).2) ∧
      (∀ e2, (checkRateLimit2 last now).2 ≤ e2 →
        (checkRateLimit2 last now).2 + RATE_LIMIT_DELAY ≤
          (checkRateLimit2 (checkRateLimit2 last now).1 e2).2) := by
  have hbase : ∀ l n : Nat, l ≤ n →
      (checkRateLimit l n).1 = n ∧
        l + RATE_LIMIT_DELAY ≤ (checkRateLimit l n).2 ∧ n ≤ (checkRateLimit l n).2 := by
    intro l n hln
    unfold checkRateLimit
    split <;> refine ⟨rfl, by omega, by omega⟩
  have hbase2 : ∀ l n : Nat, l ≤ n →
      (checkRateLimit2 l n).1 = (checkRateLimit2 l n).2 ∧
        l + RATE_LIMIT_DELAY ≤ (checkRateLimit2 l n).2 ∧
        n ≤ (checkRateLimit2 l n).2 := by
    intro l n hln
    unfold checkRateLimit2
    split <;> refine ⟨rfl, by dsimp only; omega, by dsimp only; omega⟩
  obtain ⟨h1, h2, h3⟩ := hbase last now hle
  refine ⟨h1, h2, h3, ?_, ?_⟩
  · intro e2 he2
    have hne : now ≤ e2 := Nat.le_trans h3 he2
    rw [h1]
    exact (hbase now e2 hne).2.1
  · intro e2 he2
    obtain ⟨h1', h2', h3'⟩ := hbase2 last now hle
    rw [h1']
    exact (hbase2 (checkRateLimit2 last now).2 e2 he2).2.1

/-- Witness for C3 (amended): concrete schedule with `last = 0`, entry at
60000. -/
theorem rate_governor_entry_spacing_witness :
    (checkRateLimit 0 60000).1 = 60000 ∧
      0 + RATE_LIMIT_DELAY ≤ (checkRateLimit 0 60000).2 :=
  ⟨(rate_governor_entry_spacing 0 60000 (by decide)).1,
   (rate_governor_entry_spacing 0 60000 (by decide)).2.1⟩

/-- C5: a stale-element failure retries the whole extraction at most 2
additional times, sleeping 500 ms before each retry; the total backoff with
the default retry budget of 2 never exceeds 1000 ms; when every attempt is
stale the wrapper makes the initial attempt plus exactly 2 retries and then
returns `null` — it does not propagate the error — and a successful attempt
returns the extracted data with no backoff. -/
theorem stale_retry_bounded :
    (∀ (oracle : Nat → Attempt) (i retries : Nat),
      (extractTweetDataR oracle i retries).2 ≤ 500 * retries) ∧
      (∀ (oracle : Nat → Attempt) (i : Nat),
        (∀ j, oracle j = Attempt.stale) →
        extractTweetDataR oracle i 2 = (none, 1000)) ∧
      (∀ (oracle : Nat → Attempt) (i retries : Nat) (el : TweetElement),
        oracle i = Attempt.ok el →
        extractTweetDataR oracle i retries = (extractTweetData el, 0)) := by
  refine ⟨?_, ?_, ?_⟩
  · intro oracle i retries
    induction retries generalizing i with
    | zero =>
      unfold extractTweetDataR
      cases h : oracle i <;> simp [h]
    | succ r ihr =>
      unfold extractTweetDataR
      cases h : oracle i <;> simp [h]
      have := ihr (i + 1)
      omega
  · intro oracle i h
    unfold extractTweetDataR
    rw [h i]
    dsimp only
    unfold extractTweetDataR
    rw [h (i + 1)]
    dsimp only
    unfold extractTweetDataR
    rw [h (i + 2)]
    rfl
  · intro oracle i retries el h
    cases retries <;> (unfold extractTweetDataR; rw [h])

/-- Witness for C5: with an oracle that is stale forever, the default-budget
extraction returns `null` after exactly 1000 ms of backoff. -/
theorem stale_retry_bounded_witness :
    extractTweetDataR staleOracle 0 2 = (none, 1000) :=
  stale_retry_bounded.2.1 staleOracle 0 (fun _ => rfl)

/-- Witness for C6: applying the walk characterisation to one `alice`
sibling of the `alice` head yields its segment. -/
theorem thread_walk_same_author_witness :
    threadWalk elA1 [⟨some elA2⟩] =
      [⟨"alpha two".toList, [], [], [], "https://x.com/alice/status/2".toList, []⟩] :=
  (thread_walk_same_author.2.1 elA1 ⟨some elA2⟩ []
    ⟨"alpha two".toList, [], [], [], "https://x.com/alice/status/2".toList, []⟩ []).mpr
    ⟨elA2, "alice".toList, rfl, by decide, by decide, by decide, by decide, by decide,
      by decide⟩

end TwitterMVP
